import Mathlib

/-!
Shallow embedding of the GameForge simulation engine (backend/app/simulations)
and proofs about it.  Python floats are modelled as rationals, Python dicts as
association lists, Python exceptions as an Except error type, and every source
of randomness (random.random, random.choice, random.sample, random.gauss) as an
explicit oracle parameter.  Wall-clock metadata (compute_time_ms) is outside the
model.  Definitions follow the source files; each definition's doc comment names
the Python code it embeds.
-/

/-- Dynamic configuration value: the scalars a request config can carry are
numbers or strings (schemas.py: config is an open dict). -/
inductive ConfigVal where
  | num (q : ℚ)
  | str (s : String)
deriving DecidableEq, Repr

/-- Open configuration mapping, as an association list; the first binding for a
key wins (Python dict lookup). -/
abbrev Config := List (String × ConfigVal)

/-- Python dict .get: the value bound to a key, if present. -/
def cfgGet (c : Config) (k : String) : Option ConfigVal :=
  (c.find? (fun p => p.1 == k)).map (fun p => p.2)

/-- Python dict .get with a default value. -/
def cfgGetD (c : Config) (k : String) (d : ConfigVal) : ConfigVal :=
  (cfgGet c k).getD d

/-- Python exception kinds that the embedded compute functions can raise. -/
inductive PyErr where
  | zeroDivisionError
  | indexError
  | valueError
  | typeError
deriving DecidableEq, Repr

/-- Python division: raises ZeroDivisionError on a zero denominator. -/
def qdiv (a b : ℚ) : Except PyErr ℚ :=
  if b = 0 then .error .zeroDivisionError else .ok (a / b)

/-- Reads an integer-valued config key with a default, config.get(k, d); a
non-integer value is a TypeError (Python raises it at the value's first
integer-demanding use, e.g. range()). -/
def readInt (c : Config) (k : String) (d : ℤ) : Except PyErr ℤ :=
  match cfgGet c k with
  | none => .ok d
  | some (.num q) => if q.den = 1 then .ok q.num else .error .typeError
  | some (.str _) => .error .typeError

/-- Reads a numeric config key with a default, config.get(k, d); a string value
is a TypeError (Python raises it at the value's first arithmetic use). -/
def readNum (c : Config) (k : String) (d : ℚ) : Except PyErr ℚ :=
  match cfgGet c k with
  | none => .ok d
  | some (.num q) => .ok q
  | some (.str _) => .error .typeError

/-- Turns a partial lookup into the Python exception it would raise. -/
def ofOption {α : Type} (o : Option α) (e : PyErr) : Except PyErr α :=
  match o with
  | some a => .ok a
  | none => .error e

/-- Python round(x, k), modelled as round-half-up on ℚ.  Python rounds binary
floats half-to-even; every concrete input used in a theorem below is far from a
half-way point, where all conventions agree. -/
def roundTo (k : ℕ) (x : ℚ) : ℚ :=
  ((round (x * (10 : ℚ) ^ k) : ℤ) : ℚ) / (10 : ℚ) ^ k

/-- Python list indexing l[i] for 0 ≤ i: IndexError out of range. -/
def pyGet (l : List ℚ) (i : ℕ) : Except PyErr ℚ :=
  ofOption (l.get? i) .indexError

/-- Equilibrium record (schemas.py): name, strategy labels, optional payoffs,
description. -/
structure Equilibrium where
  name : String
  strategies : List String
  payoffs : Option (List ℚ)
  description : String
deriving DecidableEq, Repr

/-- Declared parameter slice of a ParameterSpec (schemas.py): its name and
default value; the claims below only consult these two fields. -/
structure ParameterSpecLite where
  name : String
  default : ConfigVal
deriving DecidableEq, Repr

/-- Default declared for a parameter name in an info() parameter list. -/
def declaredDefault (ps : List ParameterSpecLite) (k : String) : Option ConfigVal :=
  (ps.find? (fun p => p.name == k)).map (fun p => p.default)

/-! ### Prisoner's Dilemma (prisoners_dilemma.py) -/

/-- The two actions of the game. -/
inductive PDAction where
  | C
  | D
deriving DecidableEq, Repr

/-- Noise flip: a1 = "D" if a1 == "C" else "C". -/
def flipAction (a : PDAction) : PDAction :=
  match a with
  | .C => .D
  | .D => .C

/-- Tags for the six entries of the STRATEGIES dict. -/
inductive PDStrat where
  | always_cooperate
  | always_defect
  | random
  | tit_for_tat
  | grim_trigger
  | pavlov
deriving DecidableEq, Repr

/-- The STRATEGIES dict of prisoners_dilemma.py, as name ↦ tag. -/
def PD_STRATEGY_TABLE : List (String × PDStrat) :=
  [("always_cooperate", .always_cooperate),
   ("always_defect", .always_defect),
   ("random", .random),
   ("tit_for_tat", .tit_for_tat),
   ("grim_trigger", .grim_trigger),
   ("pavlov", .pavlov)]

/-- STRATEGIES.get(name, STRATEGIES["random"]): an unknown or non-string name
resolves to the random strategy. -/
def resolveStratPD (v : ConfigVal) : PDStrat :=
  match v with
  | .str s => ((PD_STRATEGY_TABLE.find? (fun p => p.1 == s)).map (fun p => p.2)).getD .random
  | .num _ => .random

/-- One strategy decision on its two histories.  The Bool is the coin consumed
by random.choice; a none result models the IndexError an out-of-bounds h[-1] or
opp[-1] would raise. -/
def runStrat (s : PDStrat) (h opp : List PDAction) (coin : Bool) : Option PDAction :=
  match s with
  | .always_cooperate => some .C
  | .always_defect => some .D
  | .random => some (if coin then .C else .D)
  | .tit_for_tat => if opp.isEmpty then some .C else opp.getLast?
  | .grim_trigger => some (if opp.contains .D then .D else .C)
  | .pavlov =>
      if h.isEmpty then some .C
      else
        match h.getLast?, opp.getLast? with
        | some a, some b => some (if a = b then .C else .D)
        | _, _ => none

/-- The PAYOFF_MATRIX dict. -/
def PAYOFF_MATRIX (a1 a2 : PDAction) : ℚ × ℚ :=
  match a1, a2 with
  | .C, .C => (3, 3)
  | .C, .D => (0, 5)
  | .D, .C => (5, 0)
  | .D, .D => (1, 1)

/-- Randomness consumed by one Prisoner's Dilemma run, indexed by round number:
the random.choice coins of each player's strategy and the two random.random()
noise draws. -/
structure PDOracle where
  coin1 : ℕ → Bool
  coin2 : ℕ → Bool
  unif1 : ℕ → ℚ
  unif2 : ℕ → ℚ

/-- RoundData emitted by PrisonersDilemma.compute: the state dict's two entries
are the cumulative pair and the running cooperation rate. -/
structure PDRoundData where
  round_num : ℕ
  actions : List PDAction
  payoffs : List ℚ
  cumulative : List ℚ
  coop_rate : ℚ
deriving DecidableEq, Repr

/-- Loop-local accumulators of PrisonersDilemma.compute. -/
structure PDState where
  h1 : List PDAction
  h2 : List PDAction
  data : List PDRoundData
  total1 : ℚ
  total2 : ℚ
  coop : ℕ
deriving DecidableEq, Repr

/-- One iteration of the round loop of PrisonersDilemma.compute (lines 88-112):
resolve both actions, apply noise, accumulate payoffs and cooperation count,
extend the histories, append the round record. -/
def pdStep (noise : ℚ) (s1 s2 : PDStrat) (orc : PDOracle) (st : PDState) (r : ℕ) :
    Except PyErr PDState :=
  Except.bind (ofOption (runStrat s1 st.h1 st.h2 (orc.coin1 r)) .indexError) (fun b1 =>
  Except.bind (ofOption (runStrat s2 st.h2 st.h1 (orc.coin2 r)) .indexError) (fun b2 =>
    let a1 := if noise > 0 then (if orc.unif1 r < noise then flipAction b1 else b1) else b1
    let a2 := if noise > 0 then (if orc.unif2 r < noise then flipAction b2 else b2) else b2
    let p := PAYOFF_MATRIX a1 a2
    let t1 := st.total1 + p.1
    let t2 := st.total2 + p.2
    let c := st.coop + (if a1 = .C then 1 else 0) + (if a2 = .C then 1 else 0)
    Except.bind (qdiv (c : ℚ) (2 * (r : ℚ))) (fun cr =>
      .ok { h1 := st.h1 ++ [a1], h2 := st.h2 ++ [a2],
            data := st.data ++ [{ round_num := r, actions := [a1, a2], payoffs := [p.1, p.2],
                                  cumulative := [t1, t2], coop_rate := cr }],
            total1 := t1, total2 := t2, coop := c })))

/-- The full round loop, for r in range(1, rounds + 1). -/
def pdLoop (noise : ℚ) (s1 s2 : PDStrat) (orc : PDOracle) (n : ℕ) : Except PyErr PDState :=
  (List.range n).foldlM (fun st i => pdStep noise s1 s2 orc st (i + 1))
    { h1 := [], h2 := [], data := [], total1 := 0, total2 := 0, coop := 0 }

/-- The summary dict of PrisonersDilemma.compute. -/
structure PDSummary where
  total_payoff_p1 : ℚ
  total_payoff_p2 : ℚ
  avg_payoff_p1 : ℚ
  avg_payoff_p2 : ℚ
  cooperation_rate : ℚ
  strategy_p1 : ConfigVal
  strategy_p2 : ConfigVal
deriving DecidableEq, Repr

/-- SimulationResult of PrisonersDilemma.compute (compute_time_ms metadata not
modelled). -/
structure PDResult where
  game_id : String
  config : Config
  rounds : List PDRoundData
  equilibria : List Equilibrium
  summary : PDSummary
deriving DecidableEq, Repr

/-- The constant equilibria list of PrisonersDilemma.compute. -/
def pdEquilibria : List Equilibrium :=
  [{ name := "Nash Equilibrium (one-shot)", strategies := ["D", "D"], payoffs := some [1, 1],
     description := "Mutual defection is the dominant strategy equilibrium." }]

/-- Config reads at the top of PrisonersDilemma.compute (lines 74-77): rounds,
noise, and the two strategy-name values with their .get defaults. -/
def readPDParams (config : Config) : Except PyErr (ℤ × ℚ × ConfigVal × ConfigVal) :=
  Except.bind (readInt config "rounds" 100) (fun rounds =>
  Except.bind (readNum config "noise" 0) (fun noise =>
    .ok (rounds, noise, cfgGetD config "strategy_p1" (.str "tit_for_tat"),
         cfgGetD config "strategy_p2" (.str "always_defect"))))

/-- Loop plus summary of PrisonersDilemma.compute, after the config reads: the
round records and the summary dict.  The three summary divisions by rounds are
Python divisions (ZeroDivisionError when rounds = 0). -/
def computePDFrom (rounds : ℤ) (noise : ℚ) (s1v s2v : ConfigVal) (orc : PDOracle) :
    Except PyErr (List PDRoundData × PDSummary) :=
  Except.bind (pdLoop noise (resolveStratPD s1v) (resolveStratPD s2v) orc rounds.toNat) (fun fin =>
  Except.bind (qdiv fin.total1 (rounds : ℚ)) (fun avg1 =>
  Except.bind (qdiv fin.total2 (rounds : ℚ)) (fun avg2 =>
  Except.bind (qdiv (fin.coop : ℚ) (2 * (rounds : ℚ))) (fun crate =>
    .ok (fin.data,
         { total_payoff_p1 := fin.total1, total_payoff_p2 := fin.total2,
           avg_payoff_p1 := avg1, avg_payoff_p2 := avg2, cooperation_rate := crate,
           strategy_p1 := s1v, strategy_p2 := s2v })))))

/-- PrisonersDilemma.compute. -/
def computePD (config : Config) (orc : PDOracle) : Except PyErr PDResult :=
  Except.bind (readPDParams config) (fun t =>
  Except.bind (computePDFrom t.1 t.2.1 t.2.2.1 t.2.2.2 orc) (fun rs =>
    .ok { game_id := "prisoners_dilemma", config := config, rounds := rs.1,
          equilibria := pdEquilibria, summary := rs.2 }))

/-- An arbitrary fixed oracle, used to instantiate closed statements. -/
def trivOracle : PDOracle :=
  { coin1 := fun _ => false, coin2 := fun _ => false, unif1 := fun _ => 1, unif2 := fun _ => 1 }

/-! ### Auction Mechanisms (auction_mechanisms.py) -/

/-- Python max(range(n), key=f): the first index attaining the maximum of f;
ValueError on an empty range. -/
def argmaxIdx (f : ℕ → ℚ) (n : ℕ) : Except PyErr ℕ :=
  match List.range n with
  | [] => .error .valueError
  | i :: is => .ok (is.foldl (fun best j => if f j > f best then j else best) i)

/-- Insertion into a descending-sorted list. -/
def insertDesc (x : ℚ) : List ℚ → List ℚ
  | [] => [x]
  | y :: ys => if x ≥ y then x :: y :: ys else y :: insertDesc x ys

/-- Python sorted(l, reverse=True). -/
def sortDesc (l : List ℚ) : List ℚ := l.foldr insertDesc []

/-- RoundData emitted by AuctionMechanisms.compute for a sampled auction; the
state dict entries (values, winner, price, revenue) are flattened into fields. -/
structure AMRoundData where
  round_num : ℕ
  actions : List ℚ
  payoffs : List ℚ
  values : List ℚ
  winner : ℕ
  price : ℚ
  revenue : ℚ
deriving DecidableEq, Repr

/-- Loop-local accumulators of AuctionMechanisms.compute. -/
structure AMState where
  data : List AMRoundData
  revenues : List ℚ
  surpluses : List ℚ
deriving DecidableEq, Repr

/-- One auction of AuctionMechanisms.compute (lines 71-90): draw values (the
gauss draws come from the vals oracle), run the configured mechanism, return
(values, bids, winner index, price, winner surplus).  In the dutch branch the
bid-shading division by n_bidders is a plain field division: with a non-empty
bidder range the divisor is positive, and with an empty range Python never
evaluates the comprehension body. -/
def amAuction (atype : ConfigVal) (nb : ℤ) (vals : ℕ → ℕ → ℚ) (a : ℕ) :
    Except PyErr (List ℚ × List ℚ × ℕ × ℚ × ℚ) :=
  let values := (List.range nb.toNat).map (fun i => max 0 (vals a i))
  let core : Except PyErr (List ℚ × ℕ × ℚ) :=
    if atype = .str "vickrey" then
      let bids := values
      Except.bind (argmaxIdx (fun i => bids.getD i 0) nb.toNat) (fun w =>
      Except.bind (pyGet (sortDesc bids) 1) (fun p => .ok (bids, w, p)))
    else if atype = .str "english" then
      let bids := values
      Except.bind (argmaxIdx (fun i => values.getD i 0) nb.toNat) (fun w =>
      Except.bind (pyGet (sortDesc values) 1) (fun p => .ok (bids, w, p)))
    else
      let bids := values.map (fun v => v * ((nb : ℚ) - 1) / (nb : ℚ))
      Except.bind (argmaxIdx (fun i => bids.getD i 0) nb.toNat) (fun w =>
      Except.bind (pyGet bids w) (fun p => .ok (bids, w, p)))
  Except.bind core (fun t =>
  Except.bind (pyGet values t.2.1) (fun vw =>
    .ok (values, t.1, t.2.1, t.2.2, vw - t.2.2)))

/-- The RoundData literal materialized for a sampled auction (lines 95-106);
revenue = price, so both stored fields round the price.  The tuple t is the
auction outcome (values, bids, winner, price, surplus). -/
def amRecord (a : ℕ) (t : List ℚ × List ℚ × ℕ × ℚ × ℚ) : AMRoundData :=
  { round_num := a + 1,
    actions := t.2.1.map (roundTo 2),
    payoffs := t.1.enum.map (fun p =>
      if p.1 = t.2.2.1 then roundTo 2 (p.2 - t.2.2.2.1) else 0),
    values := t.1.map (roundTo 2),
    winner := t.2.2.1, price := roundTo 2 t.2.2.2.1,
    revenue := roundTo 2 t.2.2.2.1 }

/-- One iteration of the auction loop (lines 70-106): run the auction, append
revenue and winner surplus, and materialize a RoundData only when the auction
index was selected by the sampler. -/
def amStep (atype : ConfigVal) (nb : ℤ) (vals : ℕ → ℕ → ℚ) (sample : Finset ℕ)
    (st : AMState) (a : ℕ) : Except PyErr AMState :=
  Except.bind (amAuction atype nb vals a) (fun t =>
    .ok { data := if a ∈ sample then st.data ++ [amRecord a t] else st.data,
          revenues := st.revenues ++ [t.2.2.2.1],
          surpluses := st.surpluses ++ [t.2.2.2.2] })

/-- The full auction loop, for a in range(n_auctions). -/
def amLoop (atype : ConfigVal) (nb : ℤ) (vals : ℕ → ℕ → ℚ) (sample : Finset ℕ) (n : ℕ) :
    Except PyErr AMState :=
  (List.range n).foldlM (amStep atype nb vals sample) { data := [], revenues := [], surpluses := [] }

/-- The summary dict of AuctionMechanisms.compute. -/
structure AMSummary where
  avg_revenue : ℚ
  avg_winner_surplus : ℚ
  revenue_std : ℚ
  auction_type : ConfigVal
  efficiency : ℚ
deriving DecidableEq, Repr

/-- SimulationResult of AuctionMechanisms.compute; shading is the computed
bid-shading factor (n_bidders - 1)/n_bidders appearing in the equilibria text
(the surrounding static strings and compute_time_ms are not modelled). -/
structure AMResult where
  game_id : String
  config : Config
  rounds : List AMRoundData
  shading : ℚ
  summary : AMSummary
deriving DecidableEq, Repr

/-- The efficiency expression of the summary (lines 132-136): the fraction of
MATERIALIZED round records whose stored winner equals the argmax of the stored
(rounded) values, 1.0 when no record was materialized. -/
def amEfficiency (data : List AMRoundData) (nb : ℤ) : Except PyErr ℚ :=
  if data.isEmpty then .ok 1
  else
    Except.bind (data.foldlM (fun acc rd =>
        Except.bind (argmaxIdx (fun i => rd.values.getD i 0) nb.toNat) (fun w =>
          (.ok (acc + if rd.winner = w then (1 : ℚ) else 0) : Except PyErr ℚ))) (0 : ℚ))
      (fun cnt =>
    Except.bind (qdiv cnt (data.length : ℚ)) (fun e => .ok (roundTo 3 e)))

/-- Config reads at the top of AuctionMechanisms.compute (lines 58-62).  The
value_mean and value_std reads only parameterize the gauss draws, which the
vals oracle absorbs, so they are not modelled separately; numeric reads are
modelled eagerly while Python would defer a TypeError to the value's first
arithmetic use. -/
def readAMParams (config : Config) : Except PyErr (ConfigVal × ℤ × ℤ) :=
  Except.bind (readInt config "n_bidders" 5) (fun nb =>
  Except.bind (readInt config "n_auctions" 500) (fun na =>
    .ok (cfgGetD config "auction_type" (.str "vickrey"), nb, na)))

/-- Loop plus summary of AuctionMechanisms.compute after the config reads,
returning (round records, shading factor, summary).  The sample set stands for
set(random.sample(range(n_auctions), min(200, n_auctions))) (line 68), which
raises ValueError when n_auctions is negative; sqrtA stands for the float
square root in the revenue_std expression. -/
def computeAMFrom (atype : ConfigVal) (nb na : ℤ) (vals : ℕ → ℕ → ℚ) (sqrtA : ℚ → ℚ)
    (sample : Finset ℕ) : Except PyErr (List AMRoundData × ℚ × AMSummary) :=
  if na < 0 then .error .valueError
  else
    Except.bind (amLoop atype nb vals sample na.toNat) (fun fin =>
    Except.bind (qdiv fin.revenues.sum (fin.revenues.length : ℚ)) (fun avg_rev =>
    Except.bind (qdiv fin.surpluses.sum (fin.surpluses.length : ℚ)) (fun avg_surplus =>
    Except.bind (qdiv ((fin.revenues.map (fun r => (r - avg_rev) ^ 2)).sum)
        (fin.revenues.length : ℚ)) (fun var =>
    Except.bind (amEfficiency fin.data nb) (fun eff =>
      .ok (fin.data, ((nb : ℚ) - 1) / (nb : ℚ),
           { avg_revenue := roundTo 2 avg_rev,
             avg_winner_surplus := roundTo 2 avg_surplus,
             revenue_std := roundTo 2 (sqrtA var),
             auction_type := atype, efficiency := eff }))))))

/-- AuctionMechanisms.compute. -/
def computeAM (config : Config) (vals : ℕ → ℕ → ℚ) (sqrtA : ℚ → ℚ) (sample : Finset ℕ) :
    Except PyErr AMResult :=
  Except.bind (readAMParams config) (fun t =>
  Except.bind (computeAMFrom t.1 t.2.1 t.2.2 vals sqrtA sample) (fun rs =>
    .ok { game_id := "auction_mechanisms", config := config, rounds := rs.1,
          shading := rs.2.1, summary := rs.2.2 }))

/-! ### Tragedy of the Commons (tragedy_of_commons.py): the strategy table and
its resolution, the slice claim C6 is about. -/

/-- Tags for the six entries of the STRATEGIES dict of tragedy_of_commons.py. -/
inductive TOCStrat where
  | sustainable
  | greedy
  | moderate
  | adaptive
  | random
  | tit_for_tat
deriving DecidableEq, Repr

/-- The STRATEGIES dict of tragedy_of_commons.py, as name ↦ tag. -/
def TOC_STRATEGY_TABLE : List (String × TOCStrat) :=
  [("sustainable", .sustainable),
   ("greedy", .greedy),
   ("moderate", .moderate),
   ("adaptive", .adaptive),
   ("random", .random),
   ("tit_for_tat", .tit_for_tat)]

/-- STRATEGIES.get(strat_name, STRATEGIES["moderate"]) (line 54): an unknown or
non-string name resolves to the moderate strategy. -/
def resolveStratTOC (v : ConfigVal) : TOCStrat :=
  match v with
  | .str s => ((TOC_STRATEGY_TABLE.find? (fun p => p.1 == s)).map (fun p => p.2)).getD .moderate
  | .num _ => .moderate

/-- The (name, default) slice of PrisonersDilemma.info().parameters. -/
def pdParameters : List ParameterSpecLite :=
  [{ name := "rounds", default := .num 100 },
   { name := "noise", default := .num 0 },
   { name := "strategy_p1", default := .str "tit_for_tat" },
   { name := "strategy_p2", default := .str "always_defect" }]

/-- The (name, default) slice of TragedyOfCommons.info().parameters. -/
def tocParameters : List ParameterSpecLite :=
  [{ name := "n_agents", default := .num 6 },
   { name := "resource_capacity", default := .num 1000 },
   { name := "regeneration_rate", default := .num (1 / 5) },
   { name := "rounds", default := .num 100 },
   { name := "strategy", default := .str "moderate" }]

/-! ### Game registry (registry.py) and the simulate route (api/routes.py) -/

/-- One tag per game class registered in the _GAMES dict. -/
inductive Game where
  | prisoners_dilemma
  | public_goods
  | stag_hunt
  | battle_of_sexes
  | matching_pennies
  | rock_paper_scissors
  | ultimatum
  | centipede
  | ess_module
  | tragedy_of_commons
  | auction_mechanisms
  | trust_game
  | voting_game
  | bayesian_signaling
  | supply_chain
  | stackelberg
  | cournot_bertrand
  | reputation_trust
  | el_farol_bar
  | coordination_general
  | coalition_formation
  | pirate_division
deriving DecidableEq, Repr

/-- The slice of GameInfo the registry claims consult: the id and the
availability flag of each game's info() literal. -/
structure GameInfoLite where
  id : String
  available : Bool
deriving DecidableEq, Repr

/-- The id and available fields of each game module's info(), copied from the
22 source files; every one of them sets available=True. -/
def infoOf : Game → GameInfoLite
  | .prisoners_dilemma => { id := "prisoners_dilemma", available := true }
  | .public_goods => { id := "public_goods", available := true }
  | .stag_hunt => { id := "stag_hunt", available := true }
  | .battle_of_sexes => { id := "battle_of_sexes", available := true }
  | .matching_pennies => { id := "matching_pennies", available := true }
  | .rock_paper_scissors => { id := "rock_paper_scissors", available := true }
  | .ultimatum => { id := "ultimatum", available := true }
  | .centipede => { id := "centipede", available := true }
  | .ess_module => { id := "ess_module", available := true }
  | .tragedy_of_commons => { id := "tragedy_of_commons", available := true }
  | .auction_mechanisms => { id := "auction_mechanisms", available := true }
  | .trust_game => { id := "trust_game", available := true }
  | .voting_game => { id := "voting_game", available := true }
  | .bayesian_signaling => { id := "bayesian_signaling", available := true }
  | .supply_chain => { id := "supply_chain", available := true }
  | .stackelberg => { id := "stackelberg", available := true }
  | .cournot_bertrand => { id := "cournot_bertrand", available := true }
  | .reputation_trust => { id := "reputation_trust", available := true }
  | .el_farol_bar => { id := "el_farol_bar", available := true }
  | .coordination_general => { id := "coordination_general", available := true }
  | .coalition_formation => { id := "coalition_formation", available := true }
  | .pirate_division => { id := "pirate_division", available := true }

/-- The _GAMES dict of registry.py (lines 29-55), in registration (insertion)
order; Python dicts preserve insertion order. -/
def _GAMES : List (String × Game) :=
  [("prisoners_dilemma", .prisoners_dilemma),
   ("public_goods", .public_goods),
   ("stag_hunt", .stag_hunt),
   ("battle_of_sexes", .battle_of_sexes),
   ("matching_pennies", .matching_pennies),
   ("rock_paper_scissors", .rock_paper_scissors),
   ("ultimatum", .ultimatum),
   ("centipede", .centipede),
   ("ess_module", .ess_module),
   ("tragedy_of_commons", .tragedy_of_commons),
   ("auction_mechanisms", .auction_mechanisms),
   ("trust_game", .trust_game),
   ("voting_game", .voting_game),
   ("bayesian_signaling", .bayesian_signaling),
   ("supply_chain", .supply_chain),
   ("stackelberg", .stackelberg),
   ("cournot_bertrand", .cournot_bertrand),
   ("reputation_trust", .reputation_trust),
   ("el_farol_bar", .el_farol_bar),
   ("coordination_general", .coordination_general),
   ("coalition_formation", .coalition_formation),
   ("pirate_division", .pirate_division)]

/-- registry.get_game: _GAMES.get(game_id). -/
def get_game (game_id : String) : Option Game :=
  (_GAMES.find? (fun p => p.1 == game_id)).map (fun p => p.2)

/-- registry.get_all_game_info: [g.info() for g in _GAMES.values()]. -/
def get_all_game_info : List GameInfoLite :=
  _GAMES.map (fun p => infoOf p.2)

/-- registry.get_game_info: _GAMES[game_id].info() when the id is a key of
_GAMES, None otherwise. -/
def get_game_info (game_id : String) : Option GameInfoLite :=
  match _GAMES.find? (fun p => p.1 == game_id) with
  | some p => some (infoOf p.2)
  | none => none

/-- Outcome of the dispatch logic of POST /simulate (routes.py lines 28-33), up
to the point where compute would be called on the resolved game. -/
inductive RouteOutcome where
  | dispatch (g : Game)
  | notFound404
  | comingSoon501
deriving DecidableEq, Repr

/-- The dispatch logic of run_simulation: resolve the game; when absent,
return 501 if a catalog entry exists and is marked unavailable, else 404. -/
def runSimulationRoute (game_id : String) : RouteOutcome :=
  match get_game game_id with
  | some g => .dispatch g
  | none =>
    match get_game_info game_id with
    | some i => if i.available = false then .comingSoon501 else .notFound404
    | none => .notFound404

/-! ### Helper lemmas -/

/-- Reduction of Except.bind on a success. -/
theorem ebind_ok {α β : Type} (a : α) (f : α → Except PyErr β) :
    Except.bind (.ok a) f = f a := rfl

/-- Reduction of Except.bind on a failure. -/
theorem ebind_err {α β : Type} (e : PyErr) (f : α → Except PyErr β) :
    Except.bind (.error e) f = .error e := rfl

/-- Bind inversion for Except. -/
theorem except_bind_ok {α β : Type} {x : Except PyErr α} {f : α → Except PyErr β} {b : β}
    (h : x >>= f = .ok b) : ∃ a, x = .ok a ∧ f a = .ok b := by
  cases x with
  | error e => exact absurd h (by simp [Bind.bind, Except.bind])
  | ok a => exact ⟨a, rfl, by simpa [Bind.bind, Except.bind] using h⟩

/-- Bind inversion for Except.bind. -/
theorem ebind_ok_inv {α β : Type} {x : Except PyErr α} {f : α → Except PyErr β} {b : β}
    (h : Except.bind x f = .ok b) : ∃ a, x = .ok a ∧ f a = .ok b := by
  cases x with
  | error e => exact absurd h (by simp [Except.bind])
  | ok a => exact ⟨a, rfl, by simpa [Except.bind] using h⟩

/-- An invariant preserved by every successful step of a foldlM over Except is
carried from the initial to the final state. -/
theorem foldlM_ok_inv {σ α : Type} (f : σ → α → Except PyErr σ) (P : σ → Prop)
    (hf : ∀ s a s', f s a = .ok s' → P s → P s') :
    ∀ (l : List α) (s s' : σ), l.foldlM f s = .ok s' → P s → P s' := by
  intro l
  induction l with
  | nil =>
      intro s s' h hp
      simp only [List.foldlM_nil] at h
      cases h
      exact hp
  | cons a t ih =>
      intro s s' h hp
      rw [List.foldlM_cons] at h
      obtain ⟨s1, h1, h2⟩ := except_bind_ok h
      exact ih s1 s' h2 (hf s a s1 h1 hp)

/-- On a nonzero denominator qdiv is the exact division. -/
theorem qdiv_ok_of_ne (a : ℚ) {b : ℚ} (hb : b ≠ 0) : qdiv a b = .ok (a / b) := by
  unfold qdiv
  rw [if_neg hb]

/-- Successful qdiv inverts to an exact division. -/
theorem qdiv_ok {a b q : ℚ} (h : qdiv a b = .ok q) : b ≠ 0 ∧ q = a / b := by
  by_cases hb : b = 0
  · rw [qdiv, if_pos hb] at h
    exact absurd h (by simp)
  · rw [qdiv_ok_of_ne a hb] at h
    cases h
    exact ⟨hb, rfl⟩

/-- Every strategy except random ignores its coin. -/
theorem runStrat_coin_irrel {s : PDStrat} (hs : s ≠ .random) (h o : List PDAction) (c : Bool) :
    runStrat s h o c = runStrat s h o false := by
  cases s <;> simp_all [runStrat]

/-- With zero noise and non-random strategies a round step is oracle-free. -/
theorem pdStep_oracle_irrel {noise : ℚ} (hn : ¬ noise > 0) {s1 s2 : PDStrat}
    (h1 : s1 ≠ .random) (h2 : s2 ≠ .random) (orc orc' : PDOracle) (st : PDState) (r : ℕ) :
    pdStep noise s1 s2 orc st r = pdStep noise s1 s2 orc' st r := by
  unfold pdStep
  rw [runStrat_coin_irrel h1 st.h1 st.h2 (orc.coin1 r),
      runStrat_coin_irrel h1 st.h1 st.h2 (orc'.coin1 r),
      runStrat_coin_irrel h2 st.h2 st.h1 (orc.coin2 r),
      runStrat_coin_irrel h2 st.h2 st.h1 (orc'.coin2 r)]
  simp only [if_neg hn]

/-- With zero noise and non-random strategies the whole loop is oracle-free. -/
theorem pdLoop_oracle_irrel {noise : ℚ} (hn : ¬ noise > 0) {s1 s2 : PDStrat}
    (h1 : s1 ≠ .random) (h2 : s2 ≠ .random) (orc orc' : PDOracle) (n : ℕ) :
    pdLoop noise s1 s2 orc n = pdLoop noise s1 s2 orc' n := by
  unfold pdLoop
  congr 1
  funext st i
  exact pdStep_oracle_irrel hn h1 h2 orc orc' st (i + 1)

/-- With zero noise and non-random strategies the body after the config reads is
oracle-free. -/
theorem computePDFrom_oracle_irrel (rounds : ℤ) (noise : ℚ) (v1 v2 : ConfigVal)
    (hn : ¬ noise > 0) (h1 : resolveStratPD v1 ≠ .random) (h2 : resolveStratPD v2 ≠ .random)
    (orc orc' : PDOracle) :
    computePDFrom rounds noise v1 v2 orc = computePDFrom rounds noise v1 v2 orc' := by
  unfold computePDFrom
  rw [pdLoop_oracle_irrel hn h1 h2 orc orc' rounds.toNat]

/-! ### Claim C1 -/

/-- C1 counterexample: running PrisonersDilemma.compute with config
{"rounds": 0} does NOT signal an InvalidConfiguration condition before the
round loop; the (empty) loop is entered and the run fails afterwards with the
arithmetic ZeroDivisionError raised by the summary's total_payoff / rounds
division — exactly what the claim says must not happen. -/
theorem pd_rounds_zero_is_zero_division :
    computePD [("rounds", ConfigVal.num 0)] trivOracle = .error PyErr.zeroDivisionError := by
  with_unfolding_all rfl

/-- C1 amended: PrisonersDilemma.compute performs no configuration validation
at all; for every oracle, config {"rounds": 0} makes the round loop run zero
iterations and the summary construction then raises ZeroDivisionError (an
arithmetic error after the loop), not an InvalidConfiguration signal. -/
theorem pd_rounds_zero_no_validation (orc : PDOracle) :
    computePD [("rounds", ConfigVal.num 0)] orc = .error PyErr.zeroDivisionError := by
  have hp : readPDParams [("rounds", ConfigVal.num 0)] =
      .ok (0, 0, ConfigVal.str "tit_for_tat", ConfigVal.str "always_defect") := by
    with_unfolding_all rfl
  have hfrom : computePDFrom 0 0 (ConfigVal.str "tit_for_tat") (ConfigVal.str "always_defect")
      orc = .error PyErr.zeroDivisionError := by
    rw [computePDFrom_oracle_irrel 0 0 (ConfigVal.str "tit_for_tat")
      (ConfigVal.str "always_defect") (by norm_num) (by decide) (by decide) orc trivOracle]
    with_unfolding_all rfl
  unfold computePD
  rw [hp, ebind_ok]
  dsimp only
  rw [hfrom, ebind_err]

/-! ### Claim C3 -/

/-- The config of claim C3: 10 rounds, no noise, always_cooperate versus
always_defect. -/
def c3cfg : Config :=
  [("rounds", ConfigVal.num 10), ("noise", ConfigVal.num 0),
   ("strategy_p1", ConfigVal.str "always_cooperate"),
   ("strategy_p2", ConfigVal.str "always_defect")]

/-- C3: with 10 rounds, zero noise, always_cooperate versus always_defect, the
summary's total payoffs are exactly 0 for player 1 and 50 for player 2 (ten
rounds of the (C,D) payoff cell (0,5)), for every oracle. -/
theorem pd_ac_vs_ad_totals (orc : PDOracle) :
    (computePD c3cfg orc).map
      (fun r => (r.summary.total_payoff_p1, r.summary.total_payoff_p2)) = .ok (0, 50) := by
  have hp : readPDParams c3cfg =
      .ok (10, 0, ConfigVal.str "always_cooperate", ConfigVal.str "always_defect") := by
    with_unfolding_all rfl
  unfold computePD
  rw [hp, ebind_ok]
  dsimp only
  rw [computePDFrom_oracle_irrel 10 0 (ConfigVal.str "always_cooperate")
    (ConfigVal.str "always_defect") (by norm_num) (by decide) (by decide) orc trivOracle]
  with_unfolding_all rfl

/-! ### Claim C6 -/

/-- C6 counterexample: for PrisonersDilemma an unrecognized strategy name does
NOT resolve to the declared default decision function for the role.  The
declared defaults are tit_for_tat (strategy_p1) and always_defect
(strategy_p2), but resolution of an unknown name yields the random strategy,
which is a different decision function (on empty histories with a false coin it
defects while tit_for_tat cooperates). -/
theorem pd_unknown_name_not_role_default :
    declaredDefault pdParameters "strategy_p1" = some (ConfigVal.str "tit_for_tat") ∧
    declaredDefault pdParameters "strategy_p2" = some (ConfigVal.str "always_defect") ∧
    resolveStratPD (ConfigVal.str "no_such_strategy") = PDStrat.random ∧
    PDStrat.random ≠ PDStrat.tit_for_tat ∧
    PDStrat.random ≠ PDStrat.always_defect ∧
    resolveStratPD (ConfigVal.str "tit_for_tat") = PDStrat.tit_for_tat ∧
    resolveStratPD (ConfigVal.str "always_defect") = PDStrat.always_defect ∧
    runStrat PDStrat.random [] [] false = some PDAction.D ∧
    runStrat PDStrat.tit_for_tat [] [] false = some PDAction.C := by
  refine ⟨by decide, by decide, by decide, by decide, by decide, by decide, by decide, rfl, rfl⟩

/-- C6 amended: strategy resolution is total and never fails the run: an
unrecognized name falls back to a fixed strategy of the table — for
PrisonersDilemma the random strategy (which is not the declared role default),
and for TragedyOfCommons the moderate strategy, which coincides with the
declared default of its strategy parameter. -/
theorem strategy_resolution_fallback :
    (∀ s : String, PD_STRATEGY_TABLE.find? (fun p => p.1 == s) = none →
      resolveStratPD (ConfigVal.str s) = PDStrat.random) ∧
    (∀ s : String, TOC_STRATEGY_TABLE.find? (fun p => p.1 == s) = none →
      resolveStratTOC (ConfigVal.str s) = TOCStrat.moderate) ∧
    declaredDefault tocParameters "strategy" = some (ConfigVal.str "moderate") := by
  refine ⟨?_, ?_, by decide⟩
  · intro s h
    simp [resolveStratPD, h]
  · intro s h
    simp [resolveStratTOC, h]

/-- C6 witness: the fallback theorem applied to a concrete unknown name. -/
theorem strategy_resolution_fallback_witness :
    PD_STRATEGY_TABLE.find? (fun p => p.1 == "no_such_strategy") = none ∧
    resolveStratPD (ConfigVal.str "no_such_strategy") = PDStrat.random ∧
    TOC_STRATEGY_TABLE.find? (fun p => p.1 == "no_such_strategy") = none ∧
    resolveStratTOC (ConfigVal.str "no_such_strategy") = TOCStrat.moderate :=
  ⟨by decide, strategy_resolution_fallback.1 "no_such_strategy" (by decide),
   by decide, strategy_resolution_fallback.2.1 "no_such_strategy" (by decide)⟩

/-! ### Claim C7 -/

/-- C7: registry lookups signal absence without raising: get_game and
get_game_info return none for every identifier that is not a key of _GAMES,
and get_all_game_info is the fixed 22-element catalog in registration order
(so its length and order are identical across calls). -/
theorem registry_absence_and_catalog :
    (∀ gid : String, gid ∉ _GAMES.map (fun p => p.1) →
      get_game gid = none ∧ get_game_info gid = none) ∧
    get_all_game_info.length = 22 ∧
    get_all_game_info.map (fun i => i.id) =
      ["prisoners_dilemma", "public_goods", "stag_hunt", "battle_of_sexes",
       "matching_pennies", "rock_paper_scissors", "ultimatum", "centipede", "ess_module",
       "tragedy_of_commons", "auction_mechanisms", "trust_game", "voting_game",
       "bayesian_signaling", "supply_chain", "stackelberg", "cournot_bertrand",
       "reputation_trust", "el_farol_bar", "coordination_general",
       "coalition_formation", "pirate_division"] := by
  refine ⟨?_, by decide, by decide⟩
  intro gid hg
  have hf : _GAMES.find? (fun p => p.1 == gid) = none := by
    rw [List.find?_eq_none]
    intro p hp
    simp only [beq_iff_eq]
    intro hpe
    exact hg (hpe ▸ List.mem_map_of_mem (fun p => p.1) hp)
  constructor
  · simp [get_game, hf]
  · simp [get_game_info, hf]

/-- C7 witness: the absence part applied to the identifier nonexistent_id. -/
theorem registry_absence_witness :
    ("nonexistent_id" ∉ _GAMES.map (fun p => p.1)) ∧
    get_game "nonexistent_id" = none ∧ get_game_info "nonexistent_id" = none :=
  ⟨by decide,
   (registry_absence_and_catalog.1 "nonexistent_id" (by decide)).1,
   (registry_absence_and_catalog.1 "nonexistent_id" (by decide)).2⟩

/-! ### Claim C10 -/

/-- C10: get_game and get_game_info agree on absence (both are driven by the
same _GAMES mapping), every registered game's info() has available = true, and
consequently the coming-soon 501 branch of the simulate route can never be
taken. -/
theorem registry_no_unavailable_state :
    (∀ gid : String, get_game gid = none ↔ get_game_info gid = none) ∧
    (_GAMES.all (fun p => (infoOf p.2).available) = true) ∧
    (∀ gid : String, runSimulationRoute gid ≠ RouteOutcome.comingSoon501) := by
  have hiff : ∀ gid : String, get_game gid = none ↔ get_game_info gid = none := by
    intro gid
    unfold get_game get_game_info
    cases _GAMES.find? (fun p => p.1 == gid) <;> simp
  refine ⟨hiff, by decide, ?_⟩
  intro gid
  unfold runSimulationRoute
  cases hg : get_game gid with
  | some g => simp
  | none =>
      rw [(hiff gid).mp hg]
      simp

/-! ### Claim C8 -/

/-- When both strategy calls of a round return an action and the round number is
positive, the step succeeds and appends exactly one round record. -/
theorem pdStep_ok_of_some {s1 s2 : PDStrat} {orc : PDOracle} {noise : ℚ} {st : PDState} {r : ℕ}
    (h1 : (runStrat s1 st.h1 st.h2 (orc.coin1 r)).isSome = true)
    (h2 : (runStrat s2 st.h2 st.h1 (orc.coin2 r)).isSome = true) (hr : r ≠ 0) :
    ∃ st', pdStep noise s1 s2 orc st r = .ok st' ∧ st'.data.length = st.data.length + 1 := by
  obtain ⟨a1, ha1⟩ := Option.isSome_iff_exists.mp h1
  obtain ⟨a2, ha2⟩ := Option.isSome_iff_exists.mp h2
  have hden : (2 : ℚ) * (r : ℚ) ≠ 0 :=
    mul_ne_zero two_ne_zero (Nat.cast_ne_zero.mpr hr)
  unfold pdStep
  rw [ha1, ha2]
  simp only [ofOption, ebind_ok]
  rw [qdiv_ok_of_ne _ hden]
  simp only [ebind_ok]
  exact ⟨_, rfl, by simp⟩

/-- C8: every strategy of the PrisonersDilemma table handles empty histories
(round 1) without indexing out of bounds, returning an action; consequently a
run with rounds = 1 never crashes, for every pair of configured strategy values
and every oracle, and returns its single round record. -/
theorem pd_round_one_safe :
    (∀ (s : PDStrat) (coin : Bool), (runStrat s [] [] coin).isSome = true) ∧
    (∀ (v1 v2 : ConfigVal) (orc : PDOracle),
      (computePD [("rounds", ConfigVal.num 1), ("strategy_p1", v1), ("strategy_p2", v2)]
        orc).map (fun r => r.rounds.length) = .ok 1) := by
  have hstrat : ∀ (s : PDStrat) (coin : Bool), (runStrat s [] [] coin).isSome = true := by
    intro s coin
    cases s <;> cases coin <;> rfl
  refine ⟨hstrat, ?_⟩
  intro v1 v2 orc
  have hp : readPDParams [("rounds", ConfigVal.num 1), ("strategy_p1", v1), ("strategy_p2", v2)]
      = .ok (1, 0, v1, v2) := by
    with_unfolding_all rfl
  have hinit : ({ h1 := [], h2 := [], data := [], total1 := 0, total2 := 0, coop := 0 } :
      PDState).data.length = 0 := rfl
  obtain ⟨st', hst', hlen⟩ := @pdStep_ok_of_some (resolveStratPD v1)
    (resolveStratPD v2) orc 0
    { h1 := [], h2 := [], data := [], total1 := 0, total2 := 0, coop := 0 } 1
    (hstrat _ _) (hstrat _ _) one_ne_zero
  have hloop : pdLoop 0 (resolveStratPD v1) (resolveStratPD v2) orc 1 = .ok st' := by
    unfold pdLoop
    rw [show List.range 1 = [0] from rfl]
    rw [List.foldlM_cons]
    rw [show (0 : ℕ) + 1 = 1 from rfl]
    rw [hst']
    rfl
  unfold computePD
  rw [hp, ebind_ok]
  dsimp only
  unfold computePDFrom
  rw [show ((1 : ℤ).toNat) = 1 from rfl, hloop, ebind_ok]
  rw [qdiv_ok_of_ne _ (show ((1 : ℤ) : ℚ) ≠ 0 by norm_num), ebind_ok]
  rw [qdiv_ok_of_ne _ (show ((1 : ℤ) : ℚ) ≠ 0 by norm_num), ebind_ok]
  rw [qdiv_ok_of_ne _ (show (2 : ℚ) * ((1 : ℤ) : ℚ) ≠ 0 by norm_num), ebind_ok]
  simp only [ebind_ok, Except.map]
  simp [hlen, hinit]

/-! ### Claim C9 -/

/-- The config-independent components of a PD result: the round records, the
equilibria and the summary (everything except the echoed config). -/
def stripPD (r : PDResult) : List PDRoundData × List Equilibrium × PDSummary :=
  (r.rounds, r.equilibria, r.summary)

/-- A binding for a different key does not change a lookup. -/
theorem cfgGet_cons_ne {k k' : String} (v : ConfigVal) (cfg : Config) (h : k ≠ k') :
    cfgGet ((k, v) :: cfg) k' = cfgGet cfg k' := by
  unfold cfgGet
  rw [List.find?_cons_of_neg]
  simp [h]

/-- C9: unknown configuration keys do not influence the simulation: extending a
config with a binding for any key outside the four recognized parameter names
leaves the rounds, equilibria and summary of PrisonersDilemma.compute unchanged
(for every oracle, so in particular under deterministic strategies and zero
noise); and missing recognized keys take the declared defaults, which agree
with the defaults declared in info().parameters. -/
theorem pd_unknown_keys_ignored :
    (∀ (cfg : Config) (k : String) (v : ConfigVal) (orc : PDOracle),
      k ∉ (["rounds", "noise", "strategy_p1", "strategy_p2"] : List String) →
      (computePD ((k, v) :: cfg) orc).map stripPD = (computePD cfg orc).map stripPD) ∧
    readPDParams [] = .ok (100, 0, ConfigVal.str "tit_for_tat", ConfigVal.str "always_defect") ∧
    declaredDefault pdParameters "rounds" = some (ConfigVal.num 100) ∧
    declaredDefault pdParameters "noise" = some (ConfigVal.num 0) ∧
    declaredDefault pdParameters "strategy_p1" = some (ConfigVal.str "tit_for_tat") ∧
    declaredDefault pdParameters "strategy_p2" = some (ConfigVal.str "always_defect") := by
  refine ⟨?_, by with_unfolding_all rfl, by decide, by decide, by decide, by decide⟩
  intro cfg k v orc hk
  have hget : ∀ k', k' ∈ (["rounds", "noise", "strategy_p1", "strategy_p2"] : List String) →
      cfgGet ((k, v) :: cfg) k' = cfgGet cfg k' := by
    intro k' hk'
    exact cfgGet_cons_ne v cfg (fun h => hk (h ▸ hk'))
  have hparams : readPDParams ((k, v) :: cfg) = readPDParams cfg := by
    unfold readPDParams readInt readNum cfgGetD
    rw [hget "rounds" (by simp), hget "noise" (by simp),
        hget "strategy_p1" (by simp), hget "strategy_p2" (by simp)]
  unfold computePD
  rw [hparams]
  cases ht : readPDParams cfg with
  | error e => rfl
  | ok t =>
      rw [ebind_ok, ebind_ok]
      cases hf : computePDFrom t.1 t.2.1 t.2.2.1 t.2.2.2 orc with
      | error e => rfl
      | ok rs => rfl

/-- C9 witness: the noninterference theorem applied to the concrete unknown key
extra_key over the empty config. -/
theorem pd_unknown_keys_ignored_witness :
    ("extra_key" ∉ (["rounds", "noise", "strategy_p1", "strategy_p2"] : List String)) ∧
    (computePD [("extra_key", ConfigVal.num 7)] trivOracle).map stripPD =
      (computePD [] trivOracle).map stripPD :=
  ⟨by decide, pd_unknown_keys_ignored.1 [] "extra_key" (ConfigVal.num 7) trivOracle (by decide)⟩

/-! ### Claim C4 -/

/-- Loop invariant: the running totals equal the sums of the per-round payoffs
materialized so far (PrisonersDilemma materializes every round). -/
theorem pdLoop_total_eq_sum {noise : ℚ} {s1 s2 : PDStrat} {orc : PDOracle} {n : ℕ}
    {fin : PDState} (h : pdLoop noise s1 s2 orc n = .ok fin) :
    fin.total1 = (fin.data.map (fun rd => rd.payoffs.getD 0 0)).sum ∧
    fin.total2 = (fin.data.map (fun rd => rd.payoffs.getD 1 0)).sum := by
  refine foldlM_ok_inv _
    (fun st => st.total1 = (st.data.map (fun rd => rd.payoffs.getD 0 0)).sum ∧
               st.total2 = (st.data.map (fun rd => rd.payoffs.getD 1 0)).sum)
    ?_ (List.range n) _ fin h (by simp)
  intro st a st' hstep hih
  unfold pdStep at hstep
  cases hb1 : runStrat s1 st.h1 st.h2 (orc.coin1 (a + 1)) with
  | none => rw [hb1] at hstep; simp [ofOption, ebind_ok, ebind_err] at hstep
  | some b1 =>
    rw [hb1] at hstep
    cases hb2 : runStrat s2 st.h2 st.h1 (orc.coin2 (a + 1)) with
    | none => rw [hb2] at hstep; simp [ofOption, ebind_ok, ebind_err] at hstep
    | some b2 =>
      rw [hb2] at hstep
      simp only [ofOption, ebind_ok] at hstep
      cases hq : qdiv
          ((st.coop +
            (if (if noise > 0 then (if orc.unif1 (a+1) < noise then flipAction b1 else b1) else b1)
                = PDAction.C then 1 else 0) +
            (if (if noise > 0 then (if orc.unif2 (a+1) < noise then flipAction b2 else b2) else b2)
                = PDAction.C then 1 else 0) : ℕ) : ℚ) (2 * ((a + 1 : ℕ) : ℚ)) with
      | error e => rw [hq] at hstep; simp [ebind_ok, ebind_err] at hstep
      | ok cr =>
        rw [hq] at hstep
        simp only [ebind_ok] at hstep
        injection hstep with hstep
        subst hstep
        obtain ⟨ih1, ih2⟩ := hih
        constructor
        · simp [List.map_append, List.sum_append, ih1, List.getD]
        · simp [List.map_append, List.sum_append, ih2, List.getD]

/-- C4: for every config whose rounds value is a positive integer r and every
oracle, if compute succeeds then the summary's avg_payoff for each player is
exactly the sum of that player's per-round payoffs over all materialized rounds
divided by r (exact rational arithmetic stands in for floats). -/
theorem pd_avg_is_total_div_rounds (cfg : Config) (orc : PDOracle) (r : ℤ)
    (hr : readInt cfg "rounds" 100 = .ok r) (hpos : 0 < r) :
    ∀ res : PDResult, computePD cfg orc = .ok res →
      res.summary.avg_payoff_p1 =
        (res.rounds.map (fun rd => rd.payoffs.getD 0 0)).sum / (r : ℚ) ∧
      res.summary.avg_payoff_p2 =
        (res.rounds.map (fun rd => rd.payoffs.getD 1 0)).sum / (r : ℚ) := by
  intro res hres
  unfold computePD at hres
  obtain ⟨t, hparams, hres⟩ := ebind_ok_inv hres
  obtain ⟨rs, hfrom, hres2⟩ := ebind_ok_inv hres
  unfold readPDParams at hparams
  rw [hr] at hparams
  rw [ebind_ok] at hparams
  obtain ⟨noise, hn, hparams⟩ := ebind_ok_inv hparams
  injection hparams with hparams
  unfold computePDFrom at hfrom
  obtain ⟨fin, hloop, hfrom⟩ := ebind_ok_inv hfrom
  obtain ⟨avg1, hq1, hfrom⟩ := ebind_ok_inv hfrom
  obtain ⟨avg2, hq2, hfrom⟩ := ebind_ok_inv hfrom
  obtain ⟨crate, hq3, hfrom⟩ := ebind_ok_inv hfrom
  injection hfrom with hfrom
  injection hres2 with hres2
  subst hres2
  subst hfrom
  have ht1 : t.1 = r := by rw [← hparams]
  rw [ht1] at hq1 hq2 hloop
  obtain ⟨hs1, hs2⟩ := pdLoop_total_eq_sum hloop
  obtain ⟨-, hv1⟩ := qdiv_ok hq1
  obtain ⟨-, hv2⟩ := qdiv_ok hq2
  constructor
  · simp only [hv1, hs1]
  · simp only [hv2, hs2]

/-- C4 witness: the average-payoff identity instantiated at a concrete
two-round run with the default strategies. -/
theorem pd_avg_is_total_div_rounds_witness :
    readInt [("rounds", ConfigVal.num 2)] "rounds" 100 = .ok 2 ∧ (0 : ℤ) < 2 ∧
    (computePD [("rounds", ConfigVal.num 2)] trivOracle).map (fun r => r.rounds.length) =
      .ok 2 ∧
    (∀ res : PDResult, computePD [("rounds", ConfigVal.num 2)] trivOracle = .ok res →
      res.summary.avg_payoff_p1 =
        (res.rounds.map (fun rd => rd.payoffs.getD 0 0)).sum / ((2 : ℤ) : ℚ) ∧
      res.summary.avg_payoff_p2 =
        (res.rounds.map (fun rd => rd.payoffs.getD 1 0)).sum / ((2 : ℤ) : ℚ)) :=
  ⟨by with_unfolding_all rfl, by norm_num, by with_unfolding_all rfl,
   pd_avg_is_total_div_rounds [("rounds", ConfigVal.num 2)] trivOracle 2
     (by with_unfolding_all rfl) (by norm_num)⟩

/-! ### Claim C5 -/

/-- A successful PD step appends exactly one round record. -/
theorem pdStep_ok_data_length {noise : ℚ} {s1 s2 : PDStrat} {orc : PDOracle} {st : PDState}
    {r : ℕ} {st' : PDState} (h : pdStep noise s1 s2 orc st r = .ok st') :
    st'.data.length = st.data.length + 1 := by
  unfold pdStep at h
  obtain ⟨b1, hb1, h⟩ := ebind_ok_inv h
  obtain ⟨b2, hb2, h⟩ := ebind_ok_inv h
  obtain ⟨cr, hq, h⟩ := ebind_ok_inv h
  injection h with h
  subst h
  simp

/-- A successful PD fold materializes one record per processed round. -/
theorem pdFold_data_length {noise : ℚ} {s1 s2 : PDStrat} {orc : PDOracle} :
    ∀ (l : List ℕ) (st fin : PDState),
      l.foldlM (fun st i => pdStep noise s1 s2 orc st (i + 1)) st = .ok fin →
      fin.data.length = st.data.length + l.length := by
  intro l
  induction l with
  | nil =>
      intro st fin h
      simp only [List.foldlM_nil] at h
      cases h
      simp
  | cons a t ih =>
      intro st fin h
      rw [List.foldlM_cons] at h
      obtain ⟨st1, h1, h2⟩ := except_bind_ok h
      have hstep := pdStep_ok_data_length h1
      have ht := ih st1 fin h2
      simp only [List.length_cons]
      omega

/-- A successful AM fold materializes one record per processed auction index
selected by the sampler. -/
theorem amFold_data_length (atype : ConfigVal) (nb : ℤ) (vals : ℕ → ℕ → ℚ)
    (sample : Finset ℕ) :
    ∀ (l : List ℕ) (st fin : AMState),
      l.foldlM (amStep atype nb vals sample) st = .ok fin →
      fin.data.length = st.data.length + l.countP (fun a => decide (a ∈ sample)) := by
  intro l
  induction l with
  | nil =>
      intro st fin h
      simp only [List.foldlM_nil] at h
      cases h
      simp
  | cons a t ih =>
      intro st fin h
      rw [List.foldlM_cons] at h
      obtain ⟨st1, h1, h2⟩ := except_bind_ok h
      have hlen : st1.data.length = st.data.length + (if a ∈ sample then 1 else 0) := by
        unfold amStep at h1
        obtain ⟨tup, htup, h1⟩ := ebind_ok_inv h1
        injection h1 with h1
        subst h1
        by_cases hmem : a ∈ sample <;> simp [hmem]
      have ht := ih st1 fin h2
      rw [ht, hlen, List.countP_cons]
      by_cases hmem : a ∈ sample <;> simp [hmem] <;> omega

/-- Counting the members of a subset of range N along range N gives its card. -/
theorem range_countP_mem_card {N : ℕ} {sample : Finset ℕ} (hsub : sample ⊆ Finset.range N) :
    (List.range N).countP (fun a => decide (a ∈ sample)) = sample.card := by
  have h1 : ((Finset.range N).filter (fun a => a ∈ sample)).card = sample.card := by
    rw [Finset.filter_mem_eq_inter, Finset.inter_eq_right.mpr hsub]
  rw [← h1]
  rw [List.countP_eq_length_filter]
  rfl

set_option maxRecDepth 200000 in
set_option maxHeartbeats 1000000 in
/-- C5: compute under the declared defaults returns the sampler-capped round
count: PrisonersDilemma with the empty (all-defaults) config returns exactly
100 = rounds records for every oracle, and in general one record per round
(length = rounds); AuctionMechanisms returns min 200 n_auctions records for
every sample the sampler can produce (a subset of range n_auctions of size
min 200 n_auctions) — with the default n_auctions = 500 that is 200. -/
theorem compute_default_round_counts :
    (∀ orc : PDOracle, (computePD [] orc).map (fun r => r.rounds.length) = .ok 100) ∧
    (∀ (cfg : Config) (orc : PDOracle) (r : ℤ),
      readInt cfg "rounds" 100 = .ok r →
      ∀ res : PDResult, computePD cfg orc = .ok res → res.rounds.length = r.toNat) ∧
    (∀ (cfg : Config) (vals : ℕ → ℕ → ℚ) (sqrtA : ℚ → ℚ) (sample : Finset ℕ) (n : ℤ),
      readInt cfg "n_auctions" 500 = .ok n →
      sample ⊆ Finset.range n.toNat →
      sample.card = min 200 n.toNat →
      ∀ res : AMResult, computeAM cfg vals sqrtA sample = .ok res →
        res.rounds.length = min 200 n.toNat) := by
  refine ⟨?_, ?_, ?_⟩
  · intro orc
    have hp : readPDParams [] =
        .ok (100, 0, ConfigVal.str "tit_for_tat", ConfigVal.str "always_defect") := by
      with_unfolding_all rfl
    unfold computePD
    rw [hp, ebind_ok]
    dsimp only
    rw [computePDFrom_oracle_irrel 100 0 (ConfigVal.str "tit_for_tat")
      (ConfigVal.str "always_defect") (by norm_num) (by decide) (by decide) orc trivOracle]
    with_unfolding_all rfl
  · intro cfg orc r hr res hres
    unfold computePD at hres
    obtain ⟨t, hparams, hres⟩ := ebind_ok_inv hres
    obtain ⟨rs, hfrom, hres2⟩ := ebind_ok_inv hres
    unfold readPDParams at hparams
    rw [hr, ebind_ok] at hparams
    obtain ⟨noise, hn, hparams⟩ := ebind_ok_inv hparams
    injection hparams with hparams
    unfold computePDFrom at hfrom
    obtain ⟨fin, hloop, hfrom⟩ := ebind_ok_inv hfrom
    obtain ⟨avg1, hq1, hfrom⟩ := ebind_ok_inv hfrom
    obtain ⟨avg2, hq2, hfrom⟩ := ebind_ok_inv hfrom
    obtain ⟨crate, hq3, hfrom⟩ := ebind_ok_inv hfrom
    injection hfrom with hfrom
    injection hres2 with hres2
    subst hres2
    subst hfrom
    have ht1 : t.1 = r := by rw [← hparams]
    rw [ht1] at hloop
    unfold pdLoop at hloop
    have := pdFold_data_length (List.range r.toNat) _ fin hloop
    simpa using this
  · intro cfg vals sqrtA sample n hn hsub hcard res hres
    unfold computeAM at hres
    obtain ⟨t, hparams, hres⟩ := ebind_ok_inv hres
    obtain ⟨rs, hfrom, hres2⟩ := ebind_ok_inv hres
    unfold readAMParams at hparams
    obtain ⟨nb, hnb, hparams⟩ := ebind_ok_inv hparams
    rw [hn, ebind_ok] at hparams
    injection hparams with hparams
    unfold computeAMFrom at hfrom
    have ht2 : t.2.2 = n := by rw [← hparams]
    rw [ht2] at hfrom
    split at hfrom
    · exact absurd hfrom (by simp)
    · obtain ⟨fin, hloop, hfrom⟩ := ebind_ok_inv hfrom
      obtain ⟨avg_rev, hq1, hfrom⟩ := ebind_ok_inv hfrom
      obtain ⟨avg_sur, hq2, hfrom⟩ := ebind_ok_inv hfrom
      obtain ⟨var, hq3, hfrom⟩ := ebind_ok_inv hfrom
      obtain ⟨eff, heff, hfrom⟩ := ebind_ok_inv hfrom
      injection hfrom with hfrom
      injection hres2 with hres2
      subst hres2
      subst hfrom
      unfold amLoop at hloop
      have hlen := amFold_data_length t.1 t.2.1 vals sample (List.range n.toNat) _ fin hloop
      simp only [range_countP_mem_card hsub, hcard] at hlen
      simpa using hlen

/-- C5 witness: the auction-length statement applied to a concrete run with
n_auctions = 3 (all three indices sampled, min 200 3 = 3), plus the concrete
evaluation of that run. -/
theorem compute_default_round_counts_witness :
    readInt [("n_auctions", ConfigVal.num 3), ("n_bidders", ConfigVal.num 2)] "n_auctions" 500
      = .ok 3 ∧
    Finset.range 3 ⊆ Finset.range ((3 : ℤ).toNat) ∧
    (Finset.range 3).card = min 200 ((3 : ℤ).toNat) ∧
    (computeAM [("n_auctions", ConfigVal.num 3), ("n_bidders", ConfigVal.num 2)]
      (fun _ _ => 1) id (Finset.range 3)).map (fun r => r.rounds.length) = .ok 3 ∧
    readInt [("rounds", ConfigVal.num 5)] "rounds" 100 = .ok 5 ∧
    (computePD [("rounds", ConfigVal.num 5)] trivOracle).map (fun r => r.rounds.length) =
      .ok 5 ∧
    (∀ res : AMResult,
      computeAM [("n_auctions", ConfigVal.num 3), ("n_bidders", ConfigVal.num 2)]
        (fun _ _ => 1) id (Finset.range 3) = .ok res →
      res.rounds.length = min 200 ((3 : ℤ).toNat)) ∧
    (∀ res : PDResult, computePD [("rounds", ConfigVal.num 5)] trivOracle = .ok res →
      res.rounds.length = (5 : ℤ).toNat) :=
  ⟨by with_unfolding_all rfl, by decide, by decide, by with_unfolding_all rfl,
   by with_unfolding_all rfl, by with_unfolding_all rfl,
   compute_default_round_counts.2.2 [("n_auctions", ConfigVal.num 3),
     ("n_bidders", ConfigVal.num 2)] (fun _ _ => 1) id (Finset.range 3) 3
     (by with_unfolding_all rfl) (by decide) (by decide),
   compute_default_round_counts.2.1 [("rounds", ConfigVal.num 5)] trivOracle 5
     (by with_unfolding_all rfl)⟩

/-! ### Claim C2 -/

/-- Bind reduction for the monad bind on a success. -/
theorem bbind_ok {α β : Type} (a : α) (f : α → Except PyErr β) :
    ((Except.ok a : Except PyErr α) >>= f) = f a := rfl

/-- Bind reduction for the monad bind on a failure. -/
theorem bbind_err {α β : Type} (e : PyErr) (f : α → Except PyErr β) :
    ((Except.error e : Except PyErr α) >>= f) = .error e := rfl

/-- The argmax of a nonempty index range exists. -/
theorem argmaxIdx_ok (f : ℕ → ℚ) {n : ℕ} (h : n ≠ 0) : ∃ w, argmaxIdx f n = .ok w := by
  unfold argmaxIdx
  cases hn : List.range n with
  | nil => exact absurd (List.range_eq_nil.mp hn) h
  | cons i is => exact ⟨_, rfl⟩

/-- A successful auction needs a nonempty bidder range (every branch starts with
the argmax over range(n_bidders)). -/
theorem amAuction_ok_nb {atype : ConfigVal} {nb : ℤ} {vals : ℕ → ℕ → ℚ} {a : ℕ}
    {t : List ℚ × List ℚ × ℕ × ℚ × ℚ} (h : amAuction atype nb vals a = .ok t) :
    nb.toNat ≠ 0 := by
  intro h0
  unfold amAuction argmaxIdx at h
  simp only [h0, List.range_zero, List.map_nil, ebind_err, ite_self] at h
  exact absurd h (by simp)

/-- A successful loop whose final state materialized a record ran with a
nonempty bidder range. -/
theorem amLoop_ok_data_nb {atype : ConfigVal} {nb : ℤ} {vals : ℕ → ℕ → ℚ} {sample : Finset ℕ}
    {N : ℕ} {fin : AMState} (h : amLoop atype nb vals sample N = .ok fin)
    (hd : fin.data ≠ []) : nb.toNat ≠ 0 := by
  unfold amLoop at h
  cases N with
  | zero =>
      simp only [List.range_zero, List.foldlM_nil] at h
      cases h
      exact absurd rfl hd
  | succ n =>
      rw [List.range_succ_eq_map, List.foldlM_cons] at h
      obtain ⟨st1, h1, h2⟩ := except_bind_ok h
      unfold amStep at h1
      obtain ⟨t, ht, h1⟩ := ebind_ok_inv h1
      exact amAuction_ok_nb ht

/-- The efficiency expression succeeds whenever no record was materialized or
the bidder range is nonempty. -/
theorem amEfficiency_ok_of (data : List AMRoundData) (nb : ℤ)
    (h : data = [] ∨ nb.toNat ≠ 0) : ∃ q, amEfficiency data nb = .ok q := by
  unfold amEfficiency
  rcases h with hd | h0
  · subst hd
    exact ⟨1, rfl⟩
  · by_cases hd : data.isEmpty
    · rw [if_pos hd]
      exact ⟨1, rfl⟩
    · rw [if_neg hd]
      have hfold : ∀ (l : List AMRoundData) (acc : ℚ), ∃ c,
          l.foldlM (fun acc rd =>
            Except.bind (argmaxIdx (fun i => rd.values.getD i 0) nb.toNat) (fun w =>
              (.ok (acc + if rd.winner = w then (1 : ℚ) else 0) : Except PyErr ℚ))) acc
          = .ok c := by
        intro l
        induction l with
        | nil => intro acc; exact ⟨acc, rfl⟩
        | cons rd tl ih =>
            intro acc
            obtain ⟨w, hw⟩ := argmaxIdx_ok (fun i => rd.values.getD i 0) h0
            obtain ⟨c, hc⟩ := ih (acc + if rd.winner = w then 1 else 0)
            refine ⟨c, ?_⟩
            rw [List.foldlM_cons]
            rw [hw, ebind_ok, bbind_ok]
            exact hc
      obtain ⟨c, hc⟩ := hfold data 0
      rw [hc, ebind_ok]
      have hlen : ((data.length : ℕ) : ℚ) ≠ 0 := by
        have : data ≠ [] := by simpa [List.isEmpty_iff] using hd
        exact Nat.cast_ne_zero.mpr (by simpa [List.length_eq_zero] using this)
      rw [qdiv_ok_of_ne _ hlen, ebind_ok]
      exact ⟨_, rfl⟩

/-- One auction step treats two sampler outcomes identically up to the
materialized records: it fails the same way, and on success appends the same
revenue and surplus. -/
theorem amStep_rel {atype : ConfigVal} {nb : ℤ} {vals : ℕ → ℕ → ℚ} {sA sB : Finset ℕ}
    {st1 st2 : AMState} (hrev : st1.revenues = st2.revenues)
    (hsur : st1.surpluses = st2.surpluses) (a : ℕ) :
    (∀ e, amStep atype nb vals sA st1 a = .error e ↔ amStep atype nb vals sB st2 a = .error e) ∧
    (∀ st1' st2', amStep atype nb vals sA st1 a = .ok st1' →
      amStep atype nb vals sB st2 a = .ok st2' →
      st1'.revenues = st2'.revenues ∧ st1'.surpluses = st2'.surpluses) := by
  unfold amStep
  cases hA : amAuction atype nb vals a with
  | error e0 => simp [ebind_err]
  | ok t =>
      simp only [ebind_ok]
      refine ⟨by simp, ?_⟩
      intro st1' st2' h1 h2
      injection h1 with h1
      injection h2 with h2
      subst h1
      subst h2
      exact ⟨by simp [hrev], by simp [hsur]⟩

/-- The auction fold treats two sampler outcomes identically up to the
materialized records. -/
theorem amFold_rel (atype : ConfigVal) (nb : ℤ) (vals : ℕ → ℕ → ℚ) (sA sB : Finset ℕ) :
    ∀ (l : List ℕ) (st1 st2 : AMState),
      st1.revenues = st2.revenues → st1.surpluses = st2.surpluses →
      (∀ e, l.foldlM (amStep atype nb vals sA) st1 = .error e ↔
            l.foldlM (amStep atype nb vals sB) st2 = .error e) ∧
      (∀ f1 f2, l.foldlM (amStep atype nb vals sA) st1 = .ok f1 →
                l.foldlM (amStep atype nb vals sB) st2 = .ok f2 →
                f1.revenues = f2.revenues ∧ f1.surpluses = f2.surpluses) := by
  intro l
  induction l with
  | nil =>
      intro st1 st2 hrev hsur
      simp only [List.foldlM_nil]
      refine ⟨by simp [pure, Except.pure], ?_⟩
      intro f1 f2 h1 h2
      simp only [pure, Except.pure] at h1 h2
      injection h1 with h1
      injection h2 with h2
      subst h1
      subst h2
      exact ⟨hrev, hsur⟩
  | cons a tl ih =>
      intro st1 st2 hrev hsur
      rw [List.foldlM_cons, List.foldlM_cons]
      obtain ⟨hiff_step, hok_step⟩ :=
        @amStep_rel atype nb vals sA sB st1 st2 hrev hsur a
      cases hsa : amStep atype nb vals sA st1 a with
      | error e0 =>
          have hsb : amStep atype nb vals sB st2 a = .error e0 := (hiff_step e0).mp hsa
          rw [hsb]
          simp [bbind_err]
      | ok st1n =>
          cases hsb : amStep atype nb vals sB st2 a with
          | error e0 =>
              have : amStep atype nb vals sA st1 a = .error e0 := (hiff_step e0).mpr hsb
              rw [hsa] at this
              exact absurd this (by simp)
          | ok st2n =>
              obtain ⟨hrev', hsur'⟩ := hok_step st1n st2n hsa hsb
              simp only [bbind_ok]
              exact ih st1n st2n hrev' hsur'

/-- The post-loop summary pipeline yields, for two sampler outcomes, the same
failure behavior and the same (avg_revenue, avg_winner_surplus, revenue_std)
fields — only efficiency reads the materialized records. -/
theorem computeAMFrom_rel (atype : ConfigVal) (nb na : ℤ) (vals : ℕ → ℕ → ℚ) (sqrtA : ℚ → ℚ)
    (sA sB : Finset ℕ) :
    (∀ e, computeAMFrom atype nb na vals sqrtA sA = .error e ↔
          computeAMFrom atype nb na vals sqrtA sB = .error e) ∧
    (∀ r1 r2, computeAMFrom atype nb na vals sqrtA sA = .ok r1 →
              computeAMFrom atype nb na vals sqrtA sB = .ok r2 →
      r1.2.2.avg_revenue = r2.2.2.avg_revenue ∧
      r1.2.2.avg_winner_surplus = r2.2.2.avg_winner_surplus ∧
      r1.2.2.revenue_std = r2.2.2.revenue_std) := by
  unfold computeAMFrom
  by_cases hna : na < 0
  · simp [if_pos hna]
  · simp only [if_neg hna]
    obtain ⟨hliff, hlok⟩ := amFold_rel atype nb vals sA sB (List.range na.toNat)
      { data := [], revenues := [], surpluses := [] }
      { data := [], revenues := [], surpluses := [] } rfl rfl
    cases hA : amLoop atype nb vals sA na.toNat with
    | error e0 =>
        have hB : amLoop atype nb vals sB na.toNat = .error e0 := by
          unfold amLoop at hA ⊢
          exact (hliff e0).mp hA
        rw [hB]
        simp [ebind_err]
    | ok finA =>
        cases hB : amLoop atype nb vals sB na.toNat with
        | error e0 =>
            have hA' : amLoop atype nb vals sA na.toNat = .error e0 := by
              unfold amLoop at hB ⊢
              exact (hliff e0).mpr hB
            rw [hA] at hA'
            exact absurd hA' (by simp)
        | ok finB =>
            have hA' := hA
            have hB' := hB
            unfold amLoop at hA' hB'
            obtain ⟨hrev, hsur⟩ := hlok finA finB hA' hB'
            simp only [ebind_ok]
            rw [hrev, hsur]
            cases hq1 : qdiv finB.revenues.sum ((finB.revenues.length : ℕ) : ℚ) with
            | error e0 => simp [ebind_err]
            | ok avg_rev =>
                simp only [ebind_ok]
                cases hq2 : qdiv finB.surpluses.sum ((finB.surpluses.length : ℕ) : ℚ) with
                | error e0 => simp [ebind_err]
                | ok avg_sur =>
                    simp only [ebind_ok]
                    cases hq3 : qdiv ((finB.revenues.map (fun r => (r - avg_rev) ^ 2)).sum)
                        ((finB.revenues.length : ℕ) : ℚ) with
                    | error e0 => simp [ebind_err]
                    | ok var =>
                        simp only [ebind_ok]
                        have hA0 : finA.data = [] ∨ nb.toNat ≠ 0 := by
                          by_cases hd : finA.data = []
                          · exact .inl hd
                          · exact .inr (amLoop_ok_data_nb hA hd)
                        have hB0 : finB.data = [] ∨ nb.toNat ≠ 0 := by
                          by_cases hd : finB.data = []
                          · exact .inl hd
                          · exact .inr (amLoop_ok_data_nb hB hd)
                        obtain ⟨qA, hqA⟩ := amEfficiency_ok_of finA.data nb hA0
                        obtain ⟨qB, hqB⟩ := amEfficiency_ok_of finB.data nb hB0
                        rw [hqA, hqB]
                        simp only [ebind_ok]
                        refine ⟨by simp, ?_⟩
                        intro r1 r2 h1 h2
                        injection h1 with h1
                        injection h2 with h2
                        subst h1
                        subst h2
                        exact ⟨rfl, rfl, rfl⟩

/-- C2 amended: the summary fields avg_revenue, avg_winner_surplus and
revenue_std of AuctionMechanisms.compute are aggregated over ALL simulated
auctions and never depend on which indices the sampler selected (any two
sampler outcomes give identical values); the efficiency field, by contrast, is
computed from the materialized (sampled) records only. -/
theorem am_aggregates_sample_independent (cfg : Config) (vals : ℕ → ℕ → ℚ) (sqrtA : ℚ → ℚ)
    (sA sB : Finset ℕ) :
    (computeAM cfg vals sqrtA sA).map
        (fun r => (r.summary.avg_revenue, r.summary.avg_winner_surplus,
                   r.summary.revenue_std)) =
    (computeAM cfg vals sqrtA sB).map
        (fun r => (r.summary.avg_revenue, r.summary.avg_winner_surplus,
                   r.summary.revenue_std)) := by
  unfold computeAM
  cases hp : readAMParams cfg with
  | error e => simp [ebind_err]
  | ok t =>
      simp only [ebind_ok]
      obtain ⟨hiff, hok⟩ := computeAMFrom_rel t.1 t.2.1 t.2.2 vals sqrtA sA sB
      cases hFA : computeAMFrom t.1 t.2.1 t.2.2 vals sqrtA sA with
      | error e0 =>
          have hFB := (hiff e0).mp hFA
          rw [hFB]
      | ok r1 =>
          cases hFB : computeAMFrom t.1 t.2.1 t.2.2 vals sqrtA sB with
          | error e0 =>
              have : computeAMFrom t.1 t.2.1 t.2.2 vals sqrtA sA = .error e0 :=
                (hiff e0).mpr hFB
              rw [hFA] at this
              exact absurd this (by simp)
          | ok r2 =>
              obtain ⟨e1, e2, e3⟩ := hok r1 r2 hFA hFB
              simp only [ebind_ok, Except.map]
              rw [e1, e2, e3]

/-- The value stream of the C2 counterexample: auctions 0..199 draw values
(2, 1) (an auction whose stored rounded values still identify the winner);
auction 200 draws (10.001, 10.002), whose two values round to the same 10.0, so
the efficiency check read off the stored rounded values disagrees with the
recorded winner. -/
def c2vals : ℕ → ℕ → ℚ := fun a i =>
  if a = 200 then (if i = 0 then 10001 / 1000 else 10002 / 1000)
  else (if i = 0 then 2 else 1)

/-- The C2 config: 201 auctions (above the 200 sampling cap), two bidders,
default (vickrey) auction type. -/
def c2cfg : Config := [("n_auctions", ConfigVal.num 201), ("n_bidders", ConfigVal.num 2)]

/-- A sampler outcome that excludes the distorted auction 200. -/
def c2sampleA : Finset ℕ := Finset.range 200

/-- A sampler outcome that includes the distorted auction 200. -/
def c2sampleB : Finset ℕ := insert 200 (Finset.range 199)

set_option maxRecDepth 400000 in
set_option maxHeartbeats 4000000 in
/-- C2 counterexample: with n_auctions = 201 (above the sampling cap of 200)
and the same value stream, two sampler outcomes that are both valid results of
random.sample (200 distinct indices below 201) give different summary
efficiency values (1 versus 0.995): the efficiency statistic is computed over
the sampled records only, so it is NOT equal to the aggregate over all
auctions independently of which round indices the sampler selected. -/
theorem am_efficiency_depends_on_sample :
    readInt c2cfg "n_auctions" 500 = .ok 201 ∧
    c2sampleA.card = min 200 ((201 : ℤ).toNat) ∧
    c2sampleB.card = min 200 ((201 : ℤ).toNat) ∧
    c2sampleA ⊆ Finset.range ((201 : ℤ).toNat) ∧
    c2sampleB ⊆ Finset.range ((201 : ℤ).toNat) ∧
    (computeAM c2cfg c2vals id c2sampleA).map (fun r => r.summary.efficiency) = .ok 1 ∧
    (computeAM c2cfg c2vals id c2sampleB).map (fun r => r.summary.efficiency)
      = .ok (199 / 200) ∧
    (1 : ℚ) ≠ 199 / 200 := by
  refine ⟨by with_unfolding_all rfl, by decide, by decide, by decide, by decide,
    ?_, ?_, by norm_num⟩
  · with_unfolding_all rfl
  · with_unfolding_all rfl
